import Mathlib

/-
Verification of the access-control checker script (nonreentrant-check.py).

The script walks the entry-point functions of a contract model produced by an
external static-analysis engine and prints one line per function that lacks a
required modifier and is not whitelisted. We embed the contract model and the
checker as Lean definitions; the report sink (stdout) is modelled as an
explicit list of emitted lines threaded through the computation, so that every
print in the source corresponds to appending one line.
-/

/-- A modifier reference; only its string form (Python str(x)) is consulted. -/
structure ModifierRef where
  str : String
deriving DecidableEq, Repr

/-- A contract function as exposed by the model provider: constructor flag,
view flag, attached modifiers, canonical dotted name, and bare name. -/
structure Function where
  is_constructor : Bool
  view : Bool
  modifiers : List ModifierRef
  canonical_name : String
  name : String
deriving DecidableEq, Repr

/-- A contract: its name (the str() form used in the header line) and its
ordered list of entry-point functions. -/
structure Contract where
  name : String
  functions_entry_points : List Function
deriving DecidableEq, Repr

/-- The header line: print(f"### Check {contract} access controls"). -/
def headerLine (contract : Contract) : String :=
  "### Check " ++ contract.name ++ " access controls"

/-- The flagged-function line:
print(f"\t- {function.canonical_name} should have an non re-eentrant modifier"). -/
def flaggedLine (function : Function) : String :=
  "\t- " ++ function.canonical_name ++ " should have an non re-eentrant modifier"

/-- The trailer line: print("\t- No bug found"). -/
def noBugLine : String := "\t- No bug found"

/-- The decision made by the loop body for a single function: true iff the
body reaches the inner print. Mirrors the branch structure of the source:
constructors and view functions are skipped; otherwise the function is
flagged when (modifiers empty or no modifier string is in
modifiers_access_controls) and the bare name is not in the whitelist. -/
def flagsFunction (modifiers_access_controls whitelist : List String)
    (function : Function) : Bool :=
  if function.is_constructor then false
  else if function.view then false
  else if function.modifiers.isEmpty
      || !(function.modifiers.any fun x => modifiers_access_controls.contains x.str) then
    !(whitelist.contains function.name)
  else false

/-- The for-loop of _check_access_controls, threading the no_bug_found
accumulator and the emitted output. Each print appends one line to out; after
the loop the trailer is printed iff no_bug_found is still true. -/
def checkLoop (modifiers_access_controls whitelist : List String) :
    List Function → Bool → List String → List String
  | [], no_bug_found, out =>
      if no_bug_found then out ++ [noBugLine] else out
  | function :: rest, no_bug_found, out =>
      if function.is_constructor then
        checkLoop modifiers_access_controls whitelist rest no_bug_found out
      else if function.view then
        checkLoop modifiers_access_controls whitelist rest no_bug_found out
      else if function.modifiers.isEmpty
          || !(function.modifiers.any fun x => modifiers_access_controls.contains x.str) then
        if !(whitelist.contains function.name) then
          checkLoop modifiers_access_controls whitelist rest false
            (out ++ [flaggedLine function])
        else
          checkLoop modifiers_access_controls whitelist rest no_bug_found out
      else
        checkLoop modifiers_access_controls whitelist rest no_bug_found out

/-- _check_access_controls: prints the header, then runs the loop over the
entry-point functions with no_bug_found initialized to True. The out
argument is the report sink state before the call. -/
def _check_access_controls (contract : Contract)
    (modifiers_access_controls whitelist : List String)
    (out : List String) : List String :=
  checkLoop modifiers_access_controls whitelist contract.functions_entry_points true
    (out ++ [headerLine contract])

/-- The str() form of the value passed for the contract parameter: the
project lookup get_contract_from_name returns either a contract or null
(Python None, whose str() form is "None"). -/
def contractStr : Option Contract → String
  | none => "None"
  | some c => c.name

/-- The whole call on the lookup result, as in the module invocation: the
header print evaluates str(contract) first, and only then is
contract.functions_entry_points accessed, which raises (AttributeError) when
the lookup yielded null. Returns the lines emitted before termination and
whether the call crashed. -/
def _check_access_controls_opt (oc : Option Contract)
    (modifiers_access_controls whitelist : List String)
    (out : List String) : List String × Bool :=
  let out1 := out ++ ["### Check " ++ contractStr oc ++ " access controls"]
  match oc with
  | none => (out1, true)
  | some c =>
      (checkLoop modifiers_access_controls whitelist c.functions_entry_points true out1,
       false)

/-- The state a run acts on: the contract model (owned by the external
provider) and the report sink. -/
structure RunState where
  contract : Contract
  stdout : List String
deriving DecidableEq, Repr

/-- A run of the checker as a state transformer: the source only reads
contract attributes and prints, so the contract component is passed through. -/
def runCheck (s : RunState) (modifiers_access_controls whitelist : List String) :
    RunState :=
  { contract := s.contract,
    stdout := _check_access_controls s.contract modifiers_access_controls whitelist
      s.stdout }

/-- A flagged line is never the trailer line (their lengths differ). -/
lemma flaggedLine_ne_noBugLine (function : Function) :
    flaggedLine function ≠ noBugLine := by
  intro h
  have h2 := congrArg String.length h
  simp only [flaggedLine, noBugLine, String.length_append] at h2
  have e1 : ("\t- ").length = 3 := by decide
  have e2 : (" should have an non re-eentrant modifier").length = 40 := by decide
  have e3 : ("\t- No bug found").length = 15 := by decide
  rw [e1, e2, e3] at h2
  omega

/-- The loop only appends to the report sink: its output is the initial sink
contents followed by what it would emit from an empty sink. -/
lemma checkLoop_out (macs wl : List String) (fs : List Function) :
    ∀ (b : Bool) (out : List String),
      checkLoop macs wl fs b out = out ++ checkLoop macs wl fs b [] := by
  induction fs with
  | nil =>
      intro b out
      cases b <;> simp [checkLoop]
  | cons f rest ih =>
      intro b out
      by_cases hc : f.is_constructor
      · simp only [checkLoop, hc, if_true]
        exact ih b out
      · by_cases hv : f.view
        · simp only [checkLoop, hc, hv, if_true, if_false, Bool.false_eq_true]
          exact ih b out
        · by_cases hm : (f.modifiers.isEmpty
              || !(f.modifiers.any fun x => macs.contains x.str)) = true
          · by_cases hw : (!(wl.contains f.name)) = true
            · simp only [checkLoop, hc, hv, hm, hw, if_true, if_false,
                Bool.false_eq_true]
              rw [ih false (out ++ [flaggedLine f]),
                ih false ([] ++ [flaggedLine f])]
              simp
            · simp only [checkLoop, hc, hv, hm, hw, if_true, if_false,
                Bool.false_eq_true]
              exact ih b out
          · simp only [checkLoop, hc, hv, hm, if_true, if_false,
              Bool.false_eq_true]
            exact ih b out

/-- Shape of the loop output from an empty sink: one flagged line per function
satisfying flagsFunction, in order, then the trailer iff the accumulator is
still true and nothing was flagged. -/
lemma checkLoop_shape (macs wl : List String) (fs : List Function) :
    ∀ b : Bool,
      checkLoop macs wl fs b [] =
        (fs.filter (flagsFunction macs wl)).map flaggedLine ++
          (if b && (fs.filter (flagsFunction macs wl)).isEmpty then [noBugLine]
           else []) := by
  induction fs with
  | nil =>
      intro b
      cases b <;> simp [checkLoop]
  | cons f rest ih =>
      intro b
      by_cases hc : f.is_constructor
      · have hf : flagsFunction macs wl f = false := by simp [flagsFunction, hc]
        simp only [checkLoop, hc, if_true]
        rw [ih b]
        simp [List.filter_cons, hf]
      · by_cases hv : f.view
        · have hf : flagsFunction macs wl f = false := by
            simp [flagsFunction, hc, hv]
          simp only [checkLoop, hc, hv, if_true, if_false, Bool.false_eq_true]
          rw [ih b]
          simp [List.filter_cons, hf]
        · by_cases hm : (f.modifiers.isEmpty
              || !(f.modifiers.any fun x => macs.contains x.str)) = true
          · by_cases hw : (!(wl.contains f.name)) = true
            · have hf : flagsFunction macs wl f = true := by
                simp only [flagsFunction, hc, hv, hm, if_true, if_false,
                  Bool.false_eq_true]
                exact hw
              simp only [checkLoop, hc, hv, hm, hw, if_true, if_false,
                Bool.false_eq_true]
              rw [checkLoop_out macs wl rest false ([] ++ [flaggedLine f]), ih false]
              simp [List.filter_cons, hf]
            · have hw2 : (!(wl.contains f.name)) = false := by
                revert hw
                cases (!(wl.contains f.name)) <;> simp
              have hf : flagsFunction macs wl f = false := by
                simp only [flagsFunction, hc, hv, hm, if_true, if_false,
                  Bool.false_eq_true]
                exact hw2
              simp only [checkLoop, hc, hv, hm, hw, if_true, if_false,
                Bool.false_eq_true]
              rw [ih b]
              simp [List.filter_cons, hf]
          · have hf : flagsFunction macs wl f = false := by
              unfold flagsFunction
              rw [if_neg hc, if_neg hv, if_neg hm]
            simp only [checkLoop, hc, hv, hm, if_true, if_false,
              Bool.false_eq_true]
            rw [ih b]
            simp [List.filter_cons, hf]

/-- Full structure of the report produced from an empty sink. -/
lemma report_shape (c : Contract) (macs wl : List String) :
    _check_access_controls c macs wl [] =
      headerLine c ::
        ((c.functions_entry_points.filter (flagsFunction macs wl)).map flaggedLine ++
          (if (c.functions_entry_points.filter (flagsFunction macs wl)).isEmpty
           then [noBugLine] else [])) := by
  unfold _check_access_controls
  rw [checkLoop_out macs wl c.functions_entry_points true ([] ++ [headerLine c]),
    checkLoop_shape macs wl c.functions_entry_points true]
  simp

/-- The first disjunct of the guard condition is redundant: an empty modifier
list already makes the any() clause false. -/
lemma guard_cond_eq (macs : List String) (f : Function) :
    (f.modifiers.isEmpty || !(f.modifiers.any fun x => macs.contains x.str)) =
      !(f.modifiers.any fun x => macs.contains x.str) := by
  cases h : f.modifiers <;> simp [h]

/-- flagsFunction as a flat conjunction of the four tests. -/
lemma flagsFunction_eq (macs wl : List String) (f : Function) :
    flagsFunction macs wl f =
      (!f.is_constructor && (!f.view &&
        (!(f.modifiers.any fun x => macs.contains x.str) && !(wl.contains f.name)))) := by
  unfold flagsFunction
  rw [guard_cond_eq]
  cases hc : f.is_constructor <;> cases hv : f.view <;>
    cases ha : (f.modifiers.any fun x => macs.contains x.str) <;> simp

/-- The loop body, expressed through flagsFunction: the current function
contributes exactly one flagged line and clears the accumulator when
flagsFunction holds, and contributes nothing otherwise. -/
lemma checkLoop_cons (macs wl : List String) (f : Function)
    (rest : List Function) (b : Bool) (out : List String) :
    checkLoop macs wl (f :: rest) b out =
      (if flagsFunction macs wl f then
        checkLoop macs wl rest false (out ++ [flaggedLine f])
      else checkLoop macs wl rest b out) := by
  have step : checkLoop macs wl (f :: rest) b out =
        (if f.is_constructor then checkLoop macs wl rest b out
         else if f.view then checkLoop macs wl rest b out
         else if f.modifiers.isEmpty
             || !(f.modifiers.any fun x => macs.contains x.str) then
           (if !(wl.contains f.name) then
             checkLoop macs wl rest false (out ++ [flaggedLine f])
           else checkLoop macs wl rest b out)
         else checkLoop macs wl rest b out) := rfl
  rw [step]
  by_cases hc : f.is_constructor
  · have hf : flagsFunction macs wl f = false := by simp [flagsFunction, hc]
    rw [if_pos hc, hf, if_neg Bool.false_ne_true]
  · by_cases hv : f.view
    · have hf : flagsFunction macs wl f = false := by simp [flagsFunction, hc, hv]
      rw [if_neg hc, if_pos hv, hf, if_neg Bool.false_ne_true]
    · by_cases hm : (f.modifiers.isEmpty
          || !(f.modifiers.any fun x => macs.contains x.str)) = true
      · by_cases hw : (!(wl.contains f.name)) = true
        · have hf : flagsFunction macs wl f = true := by
            unfold flagsFunction
            rw [if_neg hc, if_neg hv, if_pos hm]
            exact hw
          rw [if_neg hc, if_neg hv, if_pos hm, if_pos hw, hf, if_pos rfl]
        · have hw2 : (!(wl.contains f.name)) = false := by
            revert hw
            cases (!(wl.contains f.name)) <;> simp
          have hf : flagsFunction macs wl f = false := by
            unfold flagsFunction
            rw [if_neg hc, if_neg hv, if_pos hm]
            exact hw2
          rw [if_neg hc, if_neg hv, if_pos hm, if_neg hw, hf,
            if_neg Bool.false_ne_true]
      · have hf : flagsFunction macs wl f = false := by
          unfold flagsFunction
          rw [if_neg hc, if_neg hv, if_neg hm]
        rw [if_neg hc, if_neg hv, if_neg hm, hf, if_neg Bool.false_ne_true]

/-- C1: the checker flags a function (emits the flagged-function line built
from its canonical name, clearing the no-bug accumulator) iff isConstructor
is false, isView is false, no modifier string form is a member of
modifiers_access_controls, and the bare name is not a member of the
whitelist; flagsFunction is exactly that predicate at every loop step. -/
theorem flag_condition_exact (macs wl : List String) (f : Function)
    (rest : List Function) (b : Bool) (out : List String) :
    (flagsFunction macs wl f = true ↔
      (f.is_constructor = false ∧ f.view = false ∧
        (∀ m ∈ f.modifiers, m.str ∉ macs) ∧ f.name ∉ wl)) ∧
    checkLoop macs wl (f :: rest) b out =
      (if flagsFunction macs wl f then
        checkLoop macs wl rest false (out ++ [flaggedLine f])
      else checkLoop macs wl rest b out) := by
  constructor
  · rw [flagsFunction_eq]
    simp [List.any_eq_true, and_assoc]
  · exact checkLoop_cons macs wl f rest b out

/-- C2 counterexample: when the contract lookup yields null the call does
fail, but the report output emitted before the failure is not empty: the
header line, with the null rendered as None, has already been printed. -/
theorem lookup_failure_emits_header :
    (_check_access_controls_opt none ["nonReentrant"]
      ["batchSwapGivenIn", "batchSwapGivenOut", "queryBatchSwapGivenIn",
       "queryBatchSwapGivenOut", "queryBatchSwapHelper"] []).2 = true ∧
    (_check_access_controls_opt none ["nonReentrant"]
      ["batchSwapGivenIn", "batchSwapGivenOut", "queryBatchSwapGivenIn",
       "queryBatchSwapGivenOut", "queryBatchSwapHelper"] []).1 =
      ["### Check None access controls"] :=
  ⟨rfl, rfl⟩

/-- C2 amended: on a null lookup the run fails fatally (the attribute access
on the null contract raises) before any flagged line or no-bug line is
emitted, but only after the header line rendered with None has been printed:
the sink afterwards holds exactly its prior contents plus that header line. -/
theorem lookup_failure_aborts_after_header (macs wl out : List String) :
    (_check_access_controls_opt none macs wl out).2 = true ∧
    (_check_access_controls_opt none macs wl out).1 =
      out ++ ["### Check None access controls"] :=
  ⟨rfl, rfl⟩

/-- The last line of any list of flagged lines behind a leading line is a
flagged line, never the trailer. -/
lemma getLast_flagged_ne_noBug (s : String) (l : List Function) (h : l ≠ []) :
    (s :: l.map flaggedLine).getLast? ≠ some noBugLine := by
  induction l generalizing s with
  | nil => exact absurd rfl h
  | cons f t ih =>
      cases t with
      | nil =>
          rw [List.map_cons, List.map_nil, List.getLast?_cons_cons,
            List.getLast?_singleton]
          intro hEq
          exact flaggedLine_ne_noBugLine f (Option.some.inj hEq)
      | cons g u =>
          rw [List.map_cons, List.getLast?_cons_cons]
          exact ih (flaggedLine f) (List.cons_ne_nil g u)

/-- C3: the report ends with the single no-bug line iff no function was
flagged; otherwise nothing follows the flagged lines (the report length is
exactly the header plus the flagged lines); and a contract with zero
entry-point functions produces exactly the header line followed by the
no-bug line. -/
theorem trailer_iff_none_flagged (c : Contract) (macs wl : List String)
    (nm : String) :
    ((_check_access_controls c macs wl []).getLast? = some noBugLine ↔
      c.functions_entry_points.filter (flagsFunction macs wl) = []) ∧
    (_check_access_controls c macs wl []).length =
      (if (c.functions_entry_points.filter (flagsFunction macs wl)).isEmpty
       then 2
       else 1 + (c.functions_entry_points.filter (flagsFunction macs wl)).length) ∧
    _check_access_controls { name := nm, functions_entry_points := [] } macs wl [] =
      [headerLine { name := nm, functions_entry_points := [] }, noBugLine] := by
  refine ⟨?_, ?_, ?_⟩
  · rw [report_shape]
    cases hf : c.functions_entry_points.filter (flagsFunction macs wl) with
    | nil => simp
    | cons g t =>
        simp only [List.isEmpty_cons, Bool.false_eq_true, if_false, List.append_nil]
        constructor
        · intro hEq
          exact absurd hEq
            (getLast_flagged_ne_noBug (headerLine c) (g :: t) (List.cons_ne_nil g t))
        · intro hEq
          exact absurd hEq (List.cons_ne_nil g t)
  · rw [report_shape]
    cases hf : c.functions_entry_points.filter (flagsFunction macs wl) with
    | nil => simp
    | cons g t => simp [Nat.add_comm]
  · rfl

/-- C4: a function with isConstructor true or isView true is never flagged
and the loop emits no report line for it, leaving both the sink and the
no-bug accumulator unchanged, regardless of its modifiers, its name, or the
configuration lists. -/
theorem constructor_view_exempt (macs wl : List String) (f : Function)
    (rest : List Function) (b : Bool) (out : List String)
    (h : f.is_constructor = true ∨ f.view = true) :
    flagsFunction macs wl f = false ∧
    checkLoop macs wl (f :: rest) b out = checkLoop macs wl rest b out := by
  have hf : flagsFunction macs wl f = false := by
    rcases h with hc | hv
    · simp [flagsFunction, hc]
    · simp [flagsFunction, hv]
  refine ⟨hf, ?_⟩
  rw [checkLoop_cons, hf, if_neg Bool.false_ne_true]

/-- C4 witness: a concrete constructor entry point is exempt. -/
theorem constructor_view_exempt_witness :
    flagsFunction ["nonReentrant"] []
      { is_constructor := true, view := false, modifiers := [],
        canonical_name := "Vault.constructor()", name := "constructor" } = false ∧
    checkLoop ["nonReentrant"] []
      [{ is_constructor := true, view := false, modifiers := [],
         canonical_name := "Vault.constructor()", name := "constructor" }] true [] =
      checkLoop ["nonReentrant"] [] [] true [] :=
  constructor_view_exempt ["nonReentrant"] []
    { is_constructor := true, view := false, modifiers := [],
      canonical_name := "Vault.constructor()", name := "constructor" }
    [] true [] (Or.inl rfl)

/-- C5: a function with at least one modifier whose string form is in
modifiers_access_controls is never flagged and causes no report line,
whatever the whitelist; and a function with zero modifiers is never
protected: for a non-constructor non-view function without modifiers the
flag decision is exactly the whitelist test. -/
theorem modifier_sufficiency (macs wl : List String) (f g : Function)
    (rest : List Function) (b : Bool) (out : List String)
    (hm : ∃ m ∈ f.modifiers, m.str ∈ macs)
    (hg0 : g.modifiers = []) (hgc : g.is_constructor = false)
    (hgv : g.view = false) :
    (flagsFunction macs wl f = false ∧
      checkLoop macs wl (f :: rest) b out = checkLoop macs wl rest b out) ∧
    flagsFunction macs wl g = (!(wl.contains g.name)) := by
  have ha : (f.modifiers.any fun x => macs.contains x.str) = true := by
    rcases hm with ⟨m, hmem, hstr⟩
    exact List.any_eq_true.mpr ⟨m, hmem, by simpa using hstr⟩
  have hf : flagsFunction macs wl f = false := by
    rw [flagsFunction_eq, ha]
    simp
  refine ⟨⟨hf, ?_⟩, ?_⟩
  · rw [checkLoop_cons, hf, if_neg Bool.false_ne_true]
  · simp [flagsFunction, hgc, hgv, hg0]

/-- C5 witness: a concrete guarded function is exempt whatever the whitelist
says, and a concrete modifier-free function is decided by the whitelist
alone. -/
theorem modifier_sufficiency_witness :
    (flagsFunction ["nonReentrant"] ["withdraw"]
      { is_constructor := false, view := false,
        modifiers := [{ str := "nonReentrant" }],
        canonical_name := "Vault.withdraw()", name := "withdraw" } = false ∧
     checkLoop ["nonReentrant"] ["withdraw"]
       [{ is_constructor := false, view := false,
          modifiers := [{ str := "nonReentrant" }],
          canonical_name := "Vault.withdraw()", name := "withdraw" }] true [] =
       checkLoop ["nonReentrant"] ["withdraw"] [] true []) ∧
    flagsFunction ["nonReentrant"] ["withdraw"]
      { is_constructor := false, view := false, modifiers := [],
        canonical_name := "Vault.deposit()", name := "deposit" } =
      (!((["withdraw"] : List String).contains "deposit")) :=
  modifier_sufficiency ["nonReentrant"] ["withdraw"]
    { is_constructor := false, view := false,
      modifiers := [{ str := "nonReentrant" }],
      canonical_name := "Vault.withdraw()", name := "withdraw" }
    { is_constructor := false, view := false, modifiers := [],
      canonical_name := "Vault.deposit()", name := "deposit" }
    [] true []
    ⟨{ str := "nonReentrant" }, by simp, by simp⟩ rfl rfl rfl

/-- C6: a non-constructor non-view function with no modifier string form in
modifiers_access_controls whose bare name is in the whitelist is never
flagged: the loop emits no report line for it and leaves the no-bug
accumulator unchanged. -/
theorem whitelist_overrides (macs wl : List String) (f : Function)
    (rest : List Function) (b : Bool) (out : List String)
    (hc : f.is_constructor = false) (hv : f.view = false)
    (hm : ∀ m ∈ f.modifiers, m.str ∉ macs) (hw : f.name ∈ wl) :
    flagsFunction macs wl f = false ∧
    checkLoop macs wl (f :: rest) b out = checkLoop macs wl rest b out := by
  have hcon : wl.contains f.name = true := by simpa using hw
  have hf : flagsFunction macs wl f = false := by
    rw [flagsFunction_eq, hcon]
    simp
  refine ⟨hf, ?_⟩
  rw [checkLoop_cons, hf, if_neg Bool.false_ne_true]

/-- C6 witness: a concrete whitelisted unguarded function is exempt. -/
theorem whitelist_overrides_witness :
    flagsFunction ["nonReentrant"] ["batchSwapGivenIn"]
      { is_constructor := false, view := false, modifiers := [],
        canonical_name := "Vault.batchSwapGivenIn()", name := "batchSwapGivenIn" } =
      false ∧
    checkLoop ["nonReentrant"] ["batchSwapGivenIn"]
      [{ is_constructor := false, view := false, modifiers := [],
         canonical_name := "Vault.batchSwapGivenIn()",
         name := "batchSwapGivenIn" }] true [] =
      checkLoop ["nonReentrant"] ["batchSwapGivenIn"] [] true [] :=
  whitelist_overrides ["nonReentrant"] ["batchSwapGivenIn"]
    { is_constructor := false, view := false, modifiers := [],
      canonical_name := "Vault.batchSwapGivenIn()", name := "batchSwapGivenIn" }
    [] true [] rfl rfl (by simp) (by simp)

/-- C7: the report is exactly the header line followed by one flagged line
per entry-point function satisfying the flag predicate, in the given order,
plus the trailer exactly when none was flagged; and flagsFunction coincides
with the four-part predicate (not constructor, not view, no qualifying
modifier, name not whitelisted) on every entry-point function. -/
theorem report_completeness (c : Contract) (macs wl : List String) :
    _check_access_controls c macs wl [] =
      headerLine c ::
        ((c.functions_entry_points.filter (flagsFunction macs wl)).map flaggedLine ++
          (if (c.functions_entry_points.filter (flagsFunction macs wl)).isEmpty
           then [noBugLine] else [])) ∧
    c.functions_entry_points.filter (flagsFunction macs wl) =
      c.functions_entry_points.filter (fun f =>
        !f.is_constructor && (!f.view &&
          (!(f.modifiers.any fun x => macs.contains x.str) &&
            !(wl.contains f.name)))) := by
  refine ⟨report_shape c macs wl, ?_⟩
  exact List.filter_congr fun f _ => flagsFunction_eq macs wl f

/-- C8: the checker is a total deterministic function of its inputs: what it
appends to the report sink does not depend on the sink state it starts from,
so two invocations on the same triple emit byte-identical reports. -/
theorem deterministic_report (c : Contract) (macs wl out1 out2 : List String) :
    _check_access_controls c macs wl out1 =
      out1 ++ _check_access_controls c macs wl [] ∧
    (_check_access_controls c macs wl out1).drop out1.length =
      (_check_access_controls c macs wl out2).drop out2.length := by
  have key : ∀ out : List String, _check_access_controls c macs wl out =
      out ++ _check_access_controls c macs wl [] := by
    intro out
    unfold _check_access_controls
    rw [checkLoop_out macs wl c.functions_entry_points true (out ++ [headerLine c]),
      checkLoop_out macs wl c.functions_entry_points true ([] ++ [headerLine c])]
    simp
  refine ⟨key out1, ?_⟩
  rw [key out1, key out2, List.drop_left, List.drop_left]

/-- C9: the checker never mutates the contract model: in the state-passing
run, the contract component after the check, with all its functions, is the
one before it; the only change is the appended report text. -/
theorem no_model_mutation (s : RunState) (macs wl : List String) :
    (runCheck s macs wl).contract = s.contract ∧
    (runCheck s macs wl).contract.name = s.contract.name ∧
    (runCheck s macs wl).contract.functions_entry_points =
      s.contract.functions_entry_points ∧
    (runCheck s macs wl).stdout =
      s.stdout ++ _check_access_controls s.contract macs wl [] := by
  refine ⟨rfl, rfl, rfl, ?_⟩
  show _check_access_controls s.contract macs wl s.stdout =
    s.stdout ++ _check_access_controls s.contract macs wl []
  unfold _check_access_controls
  rw [checkLoop_out macs wl s.contract.functions_entry_points true
      (s.stdout ++ [headerLine s.contract]),
    checkLoop_out macs wl s.contract.functions_entry_points true
      ([] ++ [headerLine s.contract])]
  simp

/-- C10: the report depends on the two configuration lists only through
membership: replacing either list by one with the same members (any
permutation or duplication) leaves the emitted report unchanged. -/
theorem config_membership_only (c : Contract)
    (macs1 macs2 wl1 wl2 out : List String)
    (hm : ∀ s : String, s ∈ macs1 ↔ s ∈ macs2)
    (hw : ∀ s : String, s ∈ wl1 ↔ s ∈ wl2) :
    _check_access_controls c macs1 wl1 out =
      _check_access_controls c macs2 wl2 out := by
  have hmc : ∀ a : String, macs1.contains a = macs2.contains a := by
    intro a
    apply Bool.eq_iff_iff.mpr
    constructor
    · intro h1
      have : a ∈ macs1 := by simpa using h1
      simpa using (hm a).mp this
    · intro h2
      have : a ∈ macs2 := by simpa using h2
      simpa using (hm a).mpr this
  have hwc : ∀ a : String, wl1.contains a = wl2.contains a := by
    intro a
    apply Bool.eq_iff_iff.mpr
    constructor
    · intro h1
      have : a ∈ wl1 := by simpa using h1
      simpa using (hw a).mp this
    · intro h2
      have : a ∈ wl2 := by simpa using h2
      simpa using (hw a).mpr this
  have hff : ∀ f : Function, flagsFunction macs1 wl1 f = flagsFunction macs2 wl2 f := by
    intro f
    rw [flagsFunction_eq, flagsFunction_eq]
    simp only [hmc, hwc]
  have hfilter : c.functions_entry_points.filter (flagsFunction macs1 wl1) =
      c.functions_entry_points.filter (flagsFunction macs2 wl2) :=
    List.filter_congr fun f _ => hff f
  unfold _check_access_controls
  rw [checkLoop_out macs1 wl1 c.functions_entry_points true (out ++ [headerLine c]),
    checkLoop_out macs2 wl2 c.functions_entry_points true (out ++ [headerLine c]),
    checkLoop_shape macs1 wl1 c.functions_entry_points true,
    checkLoop_shape macs2 wl2 c.functions_entry_points true, hfilter]

/-- C10 witness: a concrete contract checked against permuted and duplicated
configuration lists yields the same report. -/
theorem config_membership_only_witness :
    _check_access_controls
      { name := "Vault",
        functions_entry_points :=
          [{ is_constructor := false, view := false, modifiers := [],
             canonical_name := "Vault.deposit()", name := "deposit" }] }
      ["a", "b"] ["x", "y"] [] =
    _check_access_controls
      { name := "Vault",
        functions_entry_points :=
          [{ is_constructor := false, view := false, modifiers := [],
             canonical_name := "Vault.deposit()", name := "deposit" }] }
      ["b", "a", "a"] ["y", "x", "x"] [] :=
  config_membership_only
    { name := "Vault",
      functions_entry_points :=
        [{ is_constructor := false, view := false, modifiers := [],
           canonical_name := "Vault.deposit()", name := "deposit" }] }
    ["a", "b"] ["b", "a", "a"] ["x", "y"] ["y", "x", "x"] []
    (by intro s; constructor <;> (intro h; simp at h; rcases h with h | h <;> simp [h]))
    (by intro s; constructor <;> (intro h; simp at h; rcases h with h | h <;> simp [h]))
